import Mathlib

/-!
Shallow embedding of `src/Lesson_1/object_model.py`: the ledger
(`AccountManager` + `Transaction`), the summarization capability
(`MLModel` / `TextSummarizationModel`), the request object
(`PredictionRequest.process_request`) and the history
(`PredictionHistory`).

Modelling conventions:
- user ids (UUIDs in the source) are `Nat`;
- monetary amounts (Python floats; only ever added, subtracted and
  compared) are `Int`;
- Python dictionaries are association lists on the first matching key;
- code that can raise returns `Except String`; a `.error` value is a
  Python exception escaping the function, and `try/except` is a `match`
  on that value;
- the text helpers (`pyStrip`, `pySplitDot`, `pySplitWs`) embed the
  Python `str.strip`, `str.split('.')` and `str.split()` the source
  calls, written by structural recursion on the character list;
- `datetime` fields (`created_at`, `processed_at`) and `to_dict`
  projections carry no behaviour the claims mention and are omitted.
-/

/-! ### Python text primitives -/

/-- `str.split(sep)` for a one-character separator: keeps empty pieces,
`"".split(c) == [""]`. -/
def splitOnPred (p : Char → Bool) : List Char → List (List Char)
  | [] => [[]]
  | x :: xs =>
    match splitOnPred p xs with
    | [] => [[]]
    | h :: t => if p x then [] :: h :: t else (x :: h) :: t

/-- Python `text.split('.')`. -/
def pySplitDot (s : String) : List String :=
  (splitOnPred (fun c => c = '.') s.data).map String.mk

/-- Python `text.split()` (no argument): split on whitespace runs and
drop empty pieces. -/
def pySplitWs (s : String) : List String :=
  ((splitOnPred Char.isWhitespace s.data).filter (fun w => !w.isEmpty)).map String.mk

/-- Python `text.strip()`: remove leading and trailing whitespace. -/
def pyStrip (s : String) : String :=
  String.mk (((s.data.dropWhile Char.isWhitespace).reverse.dropWhile Char.isWhitespace).reverse)

/-- Python truthiness of an `Optional[str]`: `None` and `""` are falsy. -/
def pyTruthyStr : Option String → Bool
  | none => false
  | some s => !s.isEmpty

/-! ### Enums (`TransactionType`, `RequestStatus`) -/

inductive TransactionType where
  | deposit
  | withdrawal
  | payment
  | refund
deriving DecidableEq

inductive RequestStatus where
  | pending
  | processing
  | success
  | error
  | insufficient_funds
deriving DecidableEq

/-! ### `Transaction` -/

structure Transaction where
  user_id : Nat
  amount : Int
  transaction_type : TransactionType
  description : String
deriving DecidableEq

/-- Signed view of a transaction: deposits and refunds count positive,
withdrawals and payments negative (the ledger only ever creates
`deposit` and `withdrawal` records). -/
def Transaction.signedAmount (t : Transaction) : Int :=
  match t.transaction_type with
  | .deposit => t.amount
  | .refund => t.amount
  | .withdrawal => -t.amount
  | .payment => -t.amount

/-! ### `AccountManager` (the ledger) -/

/-- Dictionary lookup on the first matching key. -/
def lookupBal : List (Nat × Int) → Nat → Option Int
  | [], _ => none
  | (k, v) :: rest, u => if k = u then some v else lookupBal rest u

/-- Dictionary write `d[u] = v`: overwrite the first matching key, or
append a fresh entry. -/
def setBal : List (Nat × Int) → Nat → Int → List (Nat × Int)
  | [], u, v => [(u, v)]
  | (k, w) :: rest, u, v =>
    if k = u then (u, v) :: rest else (k, w) :: setBal rest u v

structure AccountManager where
  user_balances : List (Nat × Int)
  transaction_history : List Transaction
deriving DecidableEq

/-- A freshly constructed `AccountManager()`. -/
def AccountManager.init : AccountManager := ⟨[], []⟩

/-- `create_account`: raises if the user already has an entry. -/
def AccountManager.create_account (am : AccountManager) (user_id : Nat)
    (initial_balance : Int) : Except String AccountManager :=
  if (lookupBal am.user_balances user_id).isSome then
    Except.error "Account already exists"
  else
    Except.ok { am with user_balances := setBal am.user_balances user_id initial_balance }

/-- `get_balance`: `dict.get(user_id, 0.0)`. -/
def AccountManager.get_balance (am : AccountManager) (user_id : Nat) : Int :=
  (lookupBal am.user_balances user_id).getD 0

/-- `has_sufficient_balance`. -/
def AccountManager.has_sufficient_balance (am : AccountManager) (user_id : Nat)
    (amount : Int) : Bool :=
  decide (amount ≤ am.get_balance user_id)

/-- `deposit`: raises on `amount <= 0`; auto-creates a missing account
with balance 0; increments the balance and appends one `deposit`
transaction; returns `True`. -/
def AccountManager.deposit (am : AccountManager) (user_id : Nat) (amount : Int)
    (description : String) : Except String (AccountManager × Bool) :=
  if amount ≤ 0 then
    Except.error "Deposit amount must be positive"
  else
    let bs :=
      if (lookupBal am.user_balances user_id).isSome then am.user_balances
      else setBal am.user_balances user_id 0
    Except.ok
      ({ user_balances := setBal bs user_id ((lookupBal bs user_id).getD 0 + amount)
       , transaction_history :=
           am.transaction_history ++ [⟨user_id, amount, TransactionType.deposit, description⟩] },
       true)

/-- `withdraw`: raises on `amount <= 0`; returns `False` (no mutation)
when the balance is insufficient; otherwise decrements the balance,
appends one `withdrawal` transaction and returns `True`. -/
def AccountManager.withdraw (am : AccountManager) (user_id : Nat) (amount : Int)
    (description : String) : Except String (AccountManager × Bool) :=
  if amount ≤ 0 then
    Except.error "Withdrawal amount must be positive"
  else if am.has_sufficient_balance user_id amount then
    Except.ok
      ({ user_balances :=
           setBal am.user_balances user_id ((lookupBal am.user_balances user_id).getD 0 - amount)
       , transaction_history :=
           am.transaction_history ++ [⟨user_id, amount, TransactionType.withdrawal, description⟩] },
       true)
  else
    Except.ok (am, false)

/-- `get_transaction_history`: all transactions, or only one user's,
in insertion order. -/
def AccountManager.get_transaction_history (am : AccountManager)
    (user_id : Option Nat) : List Transaction :=
  match user_id with
  | some u => am.transaction_history.filter (fun t => t.user_id = u)
  | none => am.transaction_history

/-! ### `MLModel` and `TextSummarizationModel` -/

/-- The abstract `MLModel`: the three abstract stages a subclass
overrides are modelled as one composed `pipeline` field (what
`postprocess(predict(preprocess(x)))` computes for that subclass); the
pipeline may raise. -/
structure MLModel where
  name : String
  version : String
  cost_per_request : Int
  is_active : Bool
  pipeline : String → Except String String

/-- `MLModel.process`: raises `Model is not active` when deactivated,
otherwise runs preprocess → predict → postprocess. -/
def MLModel.process (m : MLModel) (input_data : String) : Except String String :=
  if m.is_active then m.pipeline input_data
  else Except.error "Model is not active"

structure TextSummarizationModel where
  name : String
  version : String
  cost_per_request : Int
  max_input_length : Nat
  is_active : Bool

/-- The dict returned by `TextSummarizationModel.preprocess`. -/
structure ProcessedData where
  cleaned_text : String
  length : Nat
  tokens : List String
deriving DecidableEq

/-- The dict returned by `TextSummarizationModel.predict`. -/
structure PredictionOutput where
  original_length : Nat
  summary_length : Nat
  summary_text : String
deriving DecidableEq

/-- `TextSummarizationModel.preprocess`. -/
def TextSummarizationModel.preprocess (m : TextSummarizationModel)
    (text : String) : ProcessedData :=
  { cleaned_text := pyStrip text
  , length := text.length
  , tokens := (pySplitWs text).take m.max_input_length }

/-- `TextSummarizationModel.predict`. -/
def TextSummarizationModel.predict (processed_data : ProcessedData) : PredictionOutput :=
  let text := processed_data.cleaned_text
  let sentences := pySplitDot text
  let summary :=
    if sentences.length > 2 then String.intercalate ". " (sentences.take 2) ++ "."
    else text
  { original_length := text.length
  , summary_length := summary.length
  , summary_text := summary }

/-- `TextSummarizationModel.postprocess`. -/
def TextSummarizationModel.postprocess (prediction : PredictionOutput) : String :=
  prediction.summary_text

/-- `process` as inherited by `TextSummarizationModel`: the active check,
then the concrete three-stage pipeline (which never raises). -/
def TextSummarizationModel.process (m : TextSummarizationModel)
    (input_data : String) : Except String String :=
  if m.is_active then
    Except.ok (TextSummarizationModel.postprocess
      (TextSummarizationModel.predict (m.preprocess input_data)))
  else Except.error "Model is not active"

/-- The upcast `TextSummarizationModel <: MLModel`. -/
def TextSummarizationModel.toMLModel (m : TextSummarizationModel) : MLModel :=
  { name := m.name
  , version := m.version
  , cost_per_request := m.cost_per_request
  , is_active := m.is_active
  , pipeline := fun t =>
      Except.ok (TextSummarizationModel.postprocess
        (TextSummarizationModel.predict (m.preprocess t))) }

/-! ### `PDFFile` -/

structure PDFFile where
  original_filename : String
  file_path : String
  file_size : Nat
  extracted_text : Option String

/-! ### `PredictionRequest` -/

structure PredictionRequest where
  user_id : Nat
  pdf_file : PDFFile
  model : MLModel
  status : RequestStatus
  cost : Int
  result : Option String

/-- The `PredictionRequest` constructor: status `PENDING`, cost
snapshotted from the model, no result. -/
def PredictionRequest.mk_request (user_id : Nat) (pdf_file : PDFFile)
    (model : MLModel) : PredictionRequest :=
  { user_id := user_id
  , pdf_file := pdf_file
  , model := model
  , status := RequestStatus.pending
  , cost := model.cost_per_request
  , result := none }

/-- The `except Exception` handler of `process_request`: set status
`ERROR`, refund `cost`, return `False`. -/
def PredictionRequest.handleException (req : PredictionRequest)
    (am : AccountManager) (e : String) :
    Except String (PredictionRequest × AccountManager × Bool) :=
  match am.deposit req.user_id req.cost ("Refund for processing error: " ++ e) with
  | Except.ok (am2, _) => Except.ok ({ req with status := RequestStatus.error }, am2, false)
  | Except.error e2 => Except.error e2

/-- `PredictionRequest.process_request`, line for line: sufficiency
check (else `INSUFFICIENT_FUNDS`), withdraw (an exception propagates),
then inside `try`: run the model on a truthy payload (`SUCCESS`), or
refund with `Refund for failed processing` on an empty payload
(`ERROR`); any exception in the `try` body lands in
`handleException`. -/
def PredictionRequest.process_request (req : PredictionRequest)
    (am : AccountManager) :
    Except String (PredictionRequest × AccountManager × Bool) :=
  if am.has_sufficient_balance req.user_id req.cost then
    match am.withdraw req.user_id req.cost ("Payment for " ++ req.model.name) with
    | Except.error e => Except.error e
    | Except.ok (am1, true) =>
      let req1 := { req with status := RequestStatus.processing }
      if pyTruthyStr req.pdf_file.extracted_text then
        match req.model.process (req.pdf_file.extracted_text.getD "") with
        | Except.ok r =>
          Except.ok ({ req1 with status := RequestStatus.success, result := some r }, am1, true)
        | Except.error e => req1.handleException am1 e
      else
        match am1.deposit req.user_id req.cost "Refund for failed processing" with
        | Except.ok (am2, _) =>
          Except.ok ({ req1 with status := RequestStatus.error }, am2, false)
        | Except.error e => req1.handleException am1 e
    | Except.ok (am1, false) =>
      Except.ok ({ req with status := RequestStatus.error }, am1, false)
  else
    Except.ok ({ req with status := RequestStatus.insufficient_funds }, am, false)

/-! ### `PredictionHistory` -/

structure PredictionHistory where
  user_id : Nat
  predictions : List PredictionRequest

/-- Python `l[start:]` for a possibly negative `start`. -/
def pySliceFrom (start : Int) (l : List α) : List α :=
  if 0 ≤ start then l.drop start.toNat
  else l.drop (l.length - (-start).toNat)

/-- `get_predictions`: `if limit:` is Python truthiness, so `None` and
`0` both return the whole list; otherwise `predictions[-limit:]`. -/
def PredictionHistory.get_predictions (h : PredictionHistory)
    (limit : Option Int) : List PredictionRequest :=
  match limit with
  | some k => if k = 0 then h.predictions else pySliceFrom (-k) h.predictions
  | none => h.predictions

/-- `get_successful_predictions`. -/
def PredictionHistory.get_successful_predictions (h : PredictionHistory) :
    List PredictionRequest :=
  h.predictions.filter (fun p => p.status = RequestStatus.success)

/-! ### Ledger operation sequences (for the reachability claims) -/

/-- One deposit-or-withdraw call on the ledger (a refund is a deposit). -/
inductive LedgerOp where
  | deposit (user_id : Nat) (amount : Int) (description : String)
  | withdraw (user_id : Nat) (amount : Int) (description : String)

def AccountManager.runOp (am : AccountManager) :
    LedgerOp → Except String (AccountManager × Bool)
  | LedgerOp.deposit u a d => am.deposit u a d
  | LedgerOp.withdraw u a d => am.withdraw u a d

/-- Run a sequence of ledger calls; an exception aborts the run. -/
def AccountManager.runOps (am : AccountManager) :
    List LedgerOp → Except String AccountManager
  | [] => Except.ok am
  | op :: rest =>
    match am.runOp op with
    | Except.error e => Except.error e
    | Except.ok (am1, _) => am1.runOps rest

/-- One ledger call including `create_account` (for reachability). -/
inductive AccountOp where
  | create (user_id : Nat) (initial_balance : Int)
  | deposit (user_id : Nat) (amount : Int) (description : String)
  | withdraw (user_id : Nat) (amount : Int) (description : String)

def AccountManager.runAccountOp (am : AccountManager) :
    AccountOp → Except String AccountManager
  | AccountOp.create u i => am.create_account u i
  | AccountOp.deposit u a d => (am.deposit u a d).map Prod.fst
  | AccountOp.withdraw u a d => (am.withdraw u a d).map Prod.fst

def AccountManager.runAccountOps (am : AccountManager) :
    List AccountOp → Except String AccountManager
  | [] => Except.ok am
  | op :: rest =>
    match am.runAccountOp op with
    | Except.error e => Except.error e
    | Except.ok am1 => am1.runAccountOps rest

/-- Sum of the `deposit`-kind amounts among a user's transactions. -/
def depositTxnSum (u : Nat) : List Transaction → Int
  | [] => 0
  | t :: ts =>
    (if t.user_id = u ∧ t.transaction_type = TransactionType.deposit then t.amount else 0)
      + depositTxnSum u ts

/-- Sum of the `withdrawal`-kind amounts among a user's transactions. -/
def withdrawalTxnSum (u : Nat) : List Transaction → Int
  | [] => 0
  | t :: ts =>
    (if t.user_id = u ∧ t.transaction_type = TransactionType.withdrawal then t.amount else 0)
      + withdrawalTxnSum u ts

/-- Signed sum (deposits positive, withdrawals negative) of a user's
transaction log entries. -/
def signedTxnSum (u : Nat) : List Transaction → Int
  | [] => 0
  | t :: ts => (if t.user_id = u then t.signedAmount else 0) + signedTxnSum u ts

/-- Total amount the operation sequence asks to deposit for user `u`. -/
def opDepositSum (u : Nat) : List LedgerOp → Int
  | [] => 0
  | LedgerOp.deposit v a _ :: rest => (if v = u then a else 0) + opDepositSum u rest
  | LedgerOp.withdraw _ _ _ :: rest => opDepositSum u rest

/-- `op.createNonneg`: the operation is not an account creation with a
negative initial balance. -/
def AccountOp.createNonneg : AccountOp → Prop
  | AccountOp.create _ i => 0 ≤ i
  | AccountOp.deposit _ _ _ => True
  | AccountOp.withdraw _ _ _ => True

instance (op : AccountOp) : Decidable op.createNonneg :=
  match op with
  | AccountOp.create _ i => inferInstanceAs (Decidable (0 ≤ i))
  | AccountOp.deposit _ _ _ => inferInstanceAs (Decidable True)
  | AccountOp.withdraw _ _ _ => inferInstanceAs (Decidable True)

/-- What one ledger call pairs with in the transaction log: a
successful deposit or withdrawal appends exactly one record of matching
kind and amount and moves the balance by that amount; a failed
withdrawal and an account creation change the log not at all. -/
def stepTxnPaired (am : AccountManager) (op : AccountOp) (am' : AccountManager) : Prop :=
  match op with
  | AccountOp.create _ _ => am'.transaction_history = am.transaction_history
  | AccountOp.deposit u a d =>
      am'.transaction_history
        = am.transaction_history ++ [⟨u, a, TransactionType.deposit, d⟩] ∧
      am'.get_balance u = am.get_balance u + a
  | AccountOp.withdraw u a d =>
      (am'.transaction_history
         = am.transaction_history ++ [⟨u, a, TransactionType.withdrawal, d⟩] ∧
       am'.get_balance u = am.get_balance u - a)
      ∨ am' = am

/-! ### Spec-side formalization for the `predict` refinement claim -/

/-- Formalization of the spec sentence for `predict` alone: split the
text on the sentence terminator; the summary is the first two sentences
joined, terminator re-appended, when more than two sentence pieces
exist, else the whole text unchanged. -/
def claimSummary (text : String) : String :=
  let sentences := pySplitDot text
  if sentences.length > 2 then String.intercalate ". " (sentences.take 2) ++ "."
  else text

/-! ### Concrete fixtures (mirroring the demo in `main()`) -/

def demoModel : TextSummarizationModel :=
  { name := "text-summarizer", version := "1.0", cost_per_request := 10
  , max_input_length := 1000, is_active := true }

def demoPdf : PDFFile :=
  { original_filename := "research_paper.pdf"
  , file_path := "/uploads/research_paper.pdf"
  , file_size := 1024000
  , extracted_text := some "First one. Second two. Third three." }

/-- A PDF whose text extraction never ran. -/
def noTextPdf : PDFFile :=
  { original_filename := "empty.pdf"
  , file_path := "/uploads/empty.pdf"
  , file_size := 2048
  , extracted_text := none }

/-- A freshly constructed request for the demo user. -/
def demoRequest : PredictionRequest :=
  PredictionRequest.mk_request 0 demoPdf demoModel.toMLModel

/-- A request over a payload with no extracted text. -/
def noTextReq : PredictionRequest :=
  PredictionRequest.mk_request 0 noTextPdf demoModel.toMLModel

/-- A request already in the terminal status `SUCCESS`. -/
def terminalSuccessReq : PredictionRequest :=
  { demoRequest with
      status := RequestStatus.success
    , result := some "First one.  Second two." }

/-- A ledger where user 0 holds balance 100. -/
def ledger100 : AccountManager := ⟨[(0, 100)], []⟩

/-- A ledger where user 0 holds balance 5. -/
def ledger5 : AccountManager := ⟨[(0, 5)], []⟩

/-- The demo model, deactivated. -/
def inactiveModel : MLModel :=
  { demoModel.toMLModel with is_active := false }

/-- A capability whose cost per use is 0 (non-negative, allowed by the
data model). -/
def freeModel : TextSummarizationModel :=
  { name := "free-summarizer", version := "1.0", cost_per_request := 0
  , max_input_length := 1000, is_active := true }

/-- A request whose snapshotted cost is 0. -/
def zeroCostReq : PredictionRequest :=
  PredictionRequest.mk_request 0 demoPdf freeModel.toMLModel

/-- The request state after `process_request` fails over `noTextPdf`:
terminal `ERROR`. -/
def noTextReqErr : PredictionRequest :=
  { noTextReq with status := RequestStatus.error }

/-- The ledger after charging and refunding user 0 over `noTextPdf`:
balance restored, a withdrawal and a deposit of 10 logged. -/
def ledger100Refunded : AccountManager :=
  ⟨[(0, 100)],
   [⟨0, 10, TransactionType.withdrawal, "Payment for text-summarizer"⟩,
    ⟨0, 10, TransactionType.deposit, "Refund for failed processing"⟩]⟩

/-- The ledger-call sequence used by the conservation witness. -/
def opsDemo : List LedgerOp :=
  [LedgerOp.deposit 0 50 "top-up", LedgerOp.withdraw 0 20 "fee"]

/-! ### Dictionary lemmas -/

theorem lookupBal_setBal_self (bs : List (Nat × Int)) (u : Nat) (v : Int) :
    lookupBal (setBal bs u v) u = some v := by
  induction bs with
  | nil => simp [setBal, lookupBal]
  | cons p rest ih =>
    obtain ⟨k, x⟩ := p
    by_cases hk : k = u
    · subst hk
      simp [setBal, lookupBal]
    · simp [setBal, hk, lookupBal, ih]

theorem lookupBal_setBal_ne (bs : List (Nat × Int)) (u : Nat) (v : Int) (w : Nat)
    (h : w ≠ u) : lookupBal (setBal bs u v) w = lookupBal bs w := by
  induction bs with
  | nil =>
    simp [setBal, lookupBal, Ne.symm h]
  | cons p rest ih =>
    obtain ⟨k, x⟩ := p
    by_cases hk : k = u
    · subst hk
      simp [setBal, lookupBal, Ne.symm h]
    · simp [setBal, hk, lookupBal, ih]

/-! ### Single-operation characterizations -/

theorem AccountManager.create_account_spec (am : AccountManager) (u : Nat) (i : Int)
    (am' : AccountManager) (h : am.create_account u i = Except.ok am') :
    am.get_balance u = 0 ∧
    am'.transaction_history = am.transaction_history ∧
    (∀ v, am'.get_balance v = if v = u then i else am.get_balance v) := by
  unfold AccountManager.create_account at h
  by_cases hl : (lookupBal am.user_balances u).isSome
  · simp [hl] at h
  · simp [hl] at h
    rw [Option.isSome_iff_exists] at hl
    push_neg at hl
    have hnone : lookupBal am.user_balances u = none := by
      cases hcase : lookupBal am.user_balances u with
      | none => rfl
      | some x => exact absurd hcase (hl x)
    refine ⟨by simp [AccountManager.get_balance, hnone], ?_, ?_⟩
    · rw [← h]
    · intro v
      by_cases hv : v = u
      · subst hv
        simp [← h, AccountManager.get_balance, lookupBal_setBal_self]
      · simp [← h, AccountManager.get_balance, lookupBal_setBal_ne _ _ _ _ hv, hv]

theorem AccountManager.deposit_spec (am : AccountManager) (u : Nat) (a : Int)
    (d : String) (am' : AccountManager) (b : Bool)
    (h : am.deposit u a d = Except.ok (am', b)) :
    0 < a ∧ b = true ∧
    am'.transaction_history
      = am.transaction_history ++ [⟨u, a, TransactionType.deposit, d⟩] ∧
    (∀ v, am'.get_balance v = if v = u then am.get_balance v + a else am.get_balance v) := by
  unfold AccountManager.deposit at h
  by_cases ha : a ≤ 0
  · simp [ha] at h
  · simp only [if_neg ha] at h
    obtain ⟨ham, hb⟩ := by
      have := h
      rw [Except.ok.injEq, Prod.mk.injEq] at this
      exact this
    refine ⟨by omega, hb.symm, by rw [← ham], ?_⟩
    intro v
    set bs := if (lookupBal am.user_balances u).isSome then am.user_balances
              else setBal am.user_balances u 0 with hbs
    have hbsu : (lookupBal bs u).getD 0 = am.get_balance u := by
      rw [hbs]
      by_cases hl : (lookupBal am.user_balances u).isSome
      · simp [hl, AccountManager.get_balance]
      · simp [hl, lookupBal_setBal_self, AccountManager.get_balance]
        rw [Option.isSome_iff_exists] at hl
        push_neg at hl
        cases hcase : lookupBal am.user_balances u with
        | none => simp
        | some x => exact absurd hcase (hl x)
    have hbsv : ∀ w, w ≠ u → lookupBal bs w = lookupBal am.user_balances w := by
      intro w hw
      rw [hbs]
      by_cases hl : (lookupBal am.user_balances u).isSome
      · simp [hl]
      · simp [hl, lookupBal_setBal_ne _ _ _ _ hw]
    by_cases hv : v = u
    · subst hv
      simp [← ham, AccountManager.get_balance, lookupBal_setBal_self, hbsu]
    · simp [← ham, AccountManager.get_balance, lookupBal_setBal_ne _ _ _ _ hv, hv,
        hbsv v hv]

theorem AccountManager.withdraw_spec (am : AccountManager) (u : Nat) (a : Int)
    (d : String) (am' : AccountManager) (b : Bool)
    (h : am.withdraw u a d = Except.ok (am', b)) :
    0 < a ∧
    ((b = true ∧ a ≤ am.get_balance u ∧
      am'.transaction_history
        = am.transaction_history ++ [⟨u, a, TransactionType.withdrawal, d⟩] ∧
      (∀ v, am'.get_balance v = if v = u then am.get_balance v - a else am.get_balance v))
     ∨ (b = false ∧ am.get_balance u < a ∧ am' = am)) := by
  unfold AccountManager.withdraw at h
  by_cases ha : a ≤ 0
  · simp [ha] at h
  · simp only [if_neg ha] at h
    by_cases hs : am.has_sufficient_balance u a
    · simp only [hs, if_true] at h
      obtain ⟨ham, hb⟩ := by
        have := h
        rw [Except.ok.injEq, Prod.mk.injEq] at this
        exact this
      have hle : a ≤ am.get_balance u := by
        have := hs
        unfold AccountManager.has_sufficient_balance at this
        exact of_decide_eq_true this
      refine ⟨by omega, Or.inl ⟨hb.symm, hle, by rw [← ham], ?_⟩⟩
      intro v
      by_cases hv : v = u
      · subst hv
        simp [← ham, AccountManager.get_balance, lookupBal_setBal_self]
      · simp [← ham, AccountManager.get_balance, lookupBal_setBal_ne _ _ _ _ hv, hv]
    · simp only [hs, Bool.false_eq_true, if_false] at h
      obtain ⟨ham, hb⟩ := by
        have := h
        rw [Except.ok.injEq, Prod.mk.injEq] at this
        exact this
      have hlt : am.get_balance u < a := by
        have := hs
        unfold AccountManager.has_sufficient_balance at this
        simp only [decide_eq_true_eq] at this
        omega
      exact ⟨by omega, Or.inr ⟨hb.symm, hlt, ham.symm⟩⟩

/-- A positive deposit never raises. -/
theorem AccountManager.deposit_pos (am : AccountManager) (u : Nat) (a : Int)
    (d : String) (h : 0 < a) :
    ∃ am', am.deposit u a d = Except.ok (am', true) := by
  unfold AccountManager.deposit
  simp [show ¬a ≤ 0 by omega]

/-- A positive withdrawal never raises (it may return `false`). -/
theorem AccountManager.withdraw_pos (am : AccountManager) (u : Nat) (a : Int)
    (d : String) (h : 0 < a) :
    ∃ am' b, am.withdraw u a d = Except.ok (am', b) := by
  unfold AccountManager.withdraw
  by_cases hs : am.has_sufficient_balance u a
  · simp [show ¬a ≤ 0 by omega, hs]
  · simp [show ¬a ≤ 0 by omega, hs]

/-! ### Sequence-level ledger lemmas -/

/-- C3: for every sequence of deposit/withdraw/refund calls that runs
without raising, the appended transaction suffix accounts for the run:
the user's final balance is the initial balance plus the sum of the
logged deposit amounts minus the sum of the logged (successful)
withdrawal amounts; the logged deposit total equals the total the
sequence asked to deposit (deposits never fail once validated); and the
signed sum of the user's new log entries equals the balance delta
exactly. -/
theorem ledger_balance_conservation (u : Nat) :
    ∀ (ops : List LedgerOp) (am am' : AccountManager),
      am.runOps ops = Except.ok am' →
      ∃ ts, am'.transaction_history = am.transaction_history ++ ts ∧
        am'.get_balance u
          = am.get_balance u + depositTxnSum u ts - withdrawalTxnSum u ts ∧
        depositTxnSum u ts = opDepositSum u ops ∧
        signedTxnSum u ts = am'.get_balance u - am.get_balance u := by
  intro ops
  induction ops with
  | nil =>
    intro am am' h
    simp [AccountManager.runOps] at h
    subst h
    exact ⟨[], by simp [depositTxnSum, withdrawalTxnSum, signedTxnSum, opDepositSum]⟩
  | cons op rest ih =>
    intro am am' h
    rw [AccountManager.runOps] at h
    cases op with
    | deposit v a d =>
      cases hd : am.deposit v a d with
      | error e => simp [AccountManager.runOp, hd] at h
      | ok p =>
        obtain ⟨am1, b⟩ := p
        simp only [AccountManager.runOp, hd] at h
        obtain ⟨hpos, hb, htx, hbal⟩ := AccountManager.deposit_spec am v a d am1 b hd
        obtain ⟨ts1, hts1, hbal1, hdep1, hsgn1⟩ := ih am1 am' h
        refine ⟨⟨v, a, TransactionType.deposit, d⟩ :: ts1, ?_, ?_, ?_, ?_⟩
        · rw [hts1, htx]
          simp
        · have hbu := hbal u
          by_cases hv : u = v
          · subst hv
            rw [if_pos rfl] at hbu
            simp [depositTxnSum, withdrawalTxnSum]
            omega
          · rw [if_neg hv] at hbu
            simp [depositTxnSum, withdrawalTxnSum, Ne.symm hv]
            omega
        · simp [depositTxnSum, opDepositSum, hdep1]
        · have hbu := hbal u
          by_cases hv : u = v
          · subst hv
            rw [if_pos rfl] at hbu
            simp [signedTxnSum, Transaction.signedAmount]
            omega
          · rw [if_neg hv] at hbu
            simp [signedTxnSum, Transaction.signedAmount, Ne.symm hv]
            omega
    | withdraw v a d =>
      cases hd : am.withdraw v a d with
      | error e => simp [AccountManager.runOp, hd] at h
      | ok p =>
        obtain ⟨am1, b⟩ := p
        simp only [AccountManager.runOp, hd] at h
        obtain ⟨hpos, hcase⟩ := AccountManager.withdraw_spec am v a d am1 b hd
        obtain ⟨ts1, hts1, hbal1, hdep1, hsgn1⟩ := ih am1 am' h
        rcases hcase with ⟨hb, hle, htx, hbal⟩ | ⟨hb, hlt, ham⟩
        · refine ⟨⟨v, a, TransactionType.withdrawal, d⟩ :: ts1, ?_, ?_, ?_, ?_⟩
          · rw [hts1, htx]
            simp
          · have hbu := hbal u
            by_cases hv : u = v
            · subst hv
              rw [if_pos rfl] at hbu
              simp [depositTxnSum, withdrawalTxnSum]
              omega
            · rw [if_neg hv] at hbu
              simp [depositTxnSum, withdrawalTxnSum, Ne.symm hv]
              omega
          · simp [depositTxnSum, opDepositSum, hdep1]
          · have hbu := hbal u
            by_cases hv : u = v
            · subst hv
              rw [if_pos rfl] at hbu
              simp [signedTxnSum, Transaction.signedAmount]
              omega
            · rw [if_neg hv] at hbu
              simp [signedTxnSum, Transaction.signedAmount, Ne.symm hv]
              omega
        · subst ham
          exact ⟨ts1, hts1, hbal1, by simp [opDepositSum, hdep1], hsgn1⟩

theorem AccountManager.runAccountOp_nonneg (am : AccountManager) (op : AccountOp)
    (am' : AccountManager) (hnn : ∀ u, 0 ≤ am.get_balance u)
    (hop : op.createNonneg) (h : am.runAccountOp op = Except.ok am') :
    ∀ u, 0 ≤ am'.get_balance u := by
  cases op with
  | create v i =>
    simp only [AccountManager.runAccountOp] at h
    obtain ⟨_, _, hbal⟩ := AccountManager.create_account_spec am v i am' h
    have hi : 0 ≤ i := hop
    intro u
    rw [hbal u]
    by_cases hv : u = v
    · rw [if_pos hv]
      exact hi
    · rw [if_neg hv]
      exact hnn u
  | deposit v a d =>
    cases hd : am.deposit v a d with
    | error e => simp [AccountManager.runAccountOp, hd, Except.map] at h
    | ok p =>
      obtain ⟨am1, b⟩ := p
      simp only [AccountManager.runAccountOp, hd, Except.map] at h
      obtain rfl : am1 = am' := by simpa using h
      obtain ⟨hpos, _, _, hbal⟩ := AccountManager.deposit_spec am v a d am1 b hd
      intro u
      rw [hbal u]
      by_cases hv : u = v
      · rw [if_pos hv]
        have := hnn u
        omega
      · rw [if_neg hv]
        exact hnn u
  | withdraw v a d =>
    cases hd : am.withdraw v a d with
    | error e => simp [AccountManager.runAccountOp, hd, Except.map] at h
    | ok p =>
      obtain ⟨am1, b⟩ := p
      simp only [AccountManager.runAccountOp, hd, Except.map] at h
      obtain rfl : am1 = am' := by simpa using h
      obtain ⟨hpos, hcase⟩ := AccountManager.withdraw_spec am v a d am1 b hd
      rcases hcase with ⟨_, hle, _, hbal⟩ | ⟨_, _, ham⟩
      · intro u
        rw [hbal u]
        by_cases hv : u = v
        · subst hv
          rw [if_pos rfl]
          omega
        · rw [if_neg hv]
          exact hnn u
      · subst ham
        exact hnn


theorem AccountManager.runAccountOps_nonneg :
    ∀ (ops : List AccountOp) (am am' : AccountManager),
      (∀ op ∈ ops, op.createNonneg) → (∀ u, 0 ≤ am.get_balance u) →
      am.runAccountOps ops = Except.ok am' → ∀ u, 0 ≤ am'.get_balance u := by
  intro ops
  induction ops with
  | nil =>
    intro am am' _ hnn h
    simp [AccountManager.runAccountOps] at h
    subst h
    exact hnn
  | cons op rest ih =>
    intro am am' hops hnn h
    rw [AccountManager.runAccountOps] at h
    cases hstep : am.runAccountOp op with
    | error e => simp [hstep] at h
    | ok am1 =>
      simp only [hstep] at h
      exact ih am1 am' (fun o ho => hops o (List.mem_cons_of_mem _ ho))
        (AccountManager.runAccountOp_nonneg am op am1 hnn
          (hops op (List.mem_cons_self _ _)) hstep) h

theorem AccountManager.runAccountOp_paired (am : AccountManager) (op : AccountOp)
    (am' : AccountManager) (h : am.runAccountOp op = Except.ok am') :
    stepTxnPaired am op am' := by
  cases op with
  | create v i =>
    simp only [AccountManager.runAccountOp] at h
    obtain ⟨_, htx, _⟩ := AccountManager.create_account_spec am v i am' h
    exact htx
  | deposit v a d =>
    cases hd : am.deposit v a d with
    | error e => simp [AccountManager.runAccountOp, hd, Except.map] at h
    | ok p =>
      obtain ⟨am1, b⟩ := p
      simp only [AccountManager.runAccountOp, hd, Except.map] at h
      obtain rfl : am1 = am' := by simpa using h
      obtain ⟨_, _, htx, hbal⟩ := AccountManager.deposit_spec am v a d am1 b hd
      exact ⟨htx, by simpa using hbal v⟩
  | withdraw v a d =>
    cases hd : am.withdraw v a d with
    | error e => simp [AccountManager.runAccountOp, hd, Except.map] at h
    | ok p =>
      obtain ⟨am1, b⟩ := p
      simp only [AccountManager.runAccountOp, hd, Except.map] at h
      obtain rfl : am1 = am' := by simpa using h
      obtain ⟨_, hcase⟩ := AccountManager.withdraw_spec am v a d am1 b hd
      rcases hcase with ⟨_, _, htx, hbal⟩ | ⟨_, _, ham⟩
      · exact Or.inl ⟨htx, by simpa using hbal v⟩
      · exact Or.inr ham

/-! ### Claim theorems -/

/-- C1: the claim says a request already in a terminal status is never
re-withdrawn or re-processed. `process_request` has no terminal-status
guard: re-invoking it on a request already terminal in `SUCCESS` (user
balance 100, cost 10) passes the sufficiency check again, withdraws 10
again (balance 90, a fresh withdrawal transaction) and re-runs the
capability to a second `SUCCESS`. -/
theorem terminal_request_reprocess_mutates_ledger :
    (terminalSuccessReq.process_request ledger100).toOption.map
      (fun out => (out.2.1.get_balance 0, out.2.1.transaction_history,
        out.1.status, out.2.2))
    = some (90,
        [⟨0, 10, TransactionType.withdrawal, "Payment for text-summarizer"⟩],
        RequestStatus.success, true) := rfl

/-- C6: when the user's balance is below the request's cost,
`process_request` returns the request in terminal status
`INSUFFICIENT_FUNDS`, returns `False`, and the ledger value is returned
entirely unchanged (same balances, no transaction appended). -/
theorem insufficient_funds_leaves_ledger_unchanged
    (req : PredictionRequest) (am : AccountManager)
    (h : am.get_balance req.user_id < req.cost) :
    req.process_request am =
      Except.ok ({ req with status := RequestStatus.insufficient_funds }, am, false) := by
  have hb : am.has_sufficient_balance req.user_id req.cost = false := by
    unfold AccountManager.has_sufficient_balance
    simp only [decide_eq_false_iff_not]
    omega
  simp [PredictionRequest.process_request, hb]

/-- C6 witness: balance 5, cost 10 (the spec scenario). -/
theorem insufficient_funds_witness :
    demoRequest.process_request ledger5 =
      Except.ok ({ demoRequest with status := RequestStatus.insufficient_funds },
        ledger5, false) :=
  insufficient_funds_leaves_ledger_unchanged demoRequest ledger5 (by decide)

/-- C7: `process` on an inactive capability fails with the
`Model is not active` error, never returns a result, and the outcome is
the same whatever the three-stage pipeline computes (so no stage can
have run). -/
theorem inactive_model_process_fails (m : MLModel) (input_data : String)
    (h : m.is_active = false) :
    m.process input_data = Except.error "Model is not active" ∧
    (∀ r : String, m.process input_data ≠ Except.ok r) ∧
    (∀ g : String → Except String String,
      (MLModel.mk m.name m.version m.cost_per_request m.is_active g).process input_data
        = Except.error "Model is not active") := by
  refine ⟨?_, ?_, ?_⟩ <;> simp [MLModel.process, h]

/-- C7 witness: the deactivated demo model on a concrete input. -/
theorem inactive_model_witness :
    inactiveModel.process "Some text." = Except.error "Model is not active" ∧
    (∀ r : String, inactiveModel.process "Some text." ≠ Except.ok r) ∧
    (∀ g : String → Except String String,
      (MLModel.mk inactiveModel.name inactiveModel.version
        inactiveModel.cost_per_request inactiveModel.is_active g).process "Some text."
        = Except.error "Model is not active") :=
  inactive_model_process_fails inactiveModel "Some text." rfl

/-- C8: `predict` computes exactly the spec-worded summary: it splits
the cleaned text on the sentence terminator and, when more than two
pieces exist, returns the first two joined with the terminator
re-appended, else the whole text unchanged; the recorded lengths are
those of the cleaned text and of that summary. -/
theorem predict_matches_spec_summary (processed_data : ProcessedData) :
    TextSummarizationModel.predict processed_data =
      { original_length := processed_data.cleaned_text.length
      , summary_length := (claimSummary processed_data.cleaned_text).length
      , summary_text := claimSummary processed_data.cleaned_text } := rfl

/-- C9 counterexample: the claim says every non-null limit `k` yields
the most recent `min(k, n)` entries, so limit 0 over a one-entry
history should yield the empty list; the code treats `0` as falsy
(`if limit:`) and returns the whole history. -/
theorem get_predictions_zero_limit_cex :
    (PredictionHistory.mk 0 [demoRequest]).get_predictions (some 0) = [demoRequest] ∧
    [demoRequest] ≠ ([] : List PredictionRequest) :=
  ⟨rfl, by simp⟩

/-- C9 (amended): `get_predictions` with no limit, or with limit 0
(treated as "no limit" by Python truthiness), returns all entries in
insertion order; for a positive limit `k` it returns exactly the most
recent `min(k, n)` entries in insertion order (the suffix of length
`min(k, n)`). -/
theorem get_predictions_limit_spec (ph : PredictionHistory) :
    ph.get_predictions none = ph.predictions ∧
    ph.get_predictions (some 0) = ph.predictions ∧
    (∀ k : Int, 1 ≤ k →
      ph.get_predictions (some k)
        = ph.predictions.drop (ph.predictions.length - k.toNat) ∧
      (ph.get_predictions (some k)).length
        = min k.toNat ph.predictions.length) := by
  refine ⟨rfl, rfl, ?_⟩
  intro k hk
  have hk0 : k ≠ 0 := by omega
  have hneg : ¬(0 ≤ -k) := by omega
  have hslice : ph.get_predictions (some k)
      = ph.predictions.drop (ph.predictions.length - k.toNat) := by
    simp only [PredictionHistory.get_predictions, pySliceFrom]
    rw [if_neg hk0, if_neg hneg, neg_neg]
  refine ⟨hslice, ?_⟩
  rw [hslice, List.length_drop]
  omega

/-- C9 witness: limit 5 over a one-entry history returns that entry. -/
theorem get_predictions_limit_witness :
    (PredictionHistory.mk 0 [demoRequest]).get_predictions (some 5)
      = [demoRequest].drop ([demoRequest].length - (5 : Int).toNat) ∧
    ((PredictionHistory.mk 0 [demoRequest]).get_predictions (some 5)).length
      = min (5 : Int).toNat [demoRequest].length :=
  (get_predictions_limit_spec ⟨0, [demoRequest]⟩).2.2 5 (by decide)

/-- C10: for an active text-summarization capability, the output of
`process` does not depend on `max_input_length`: two capabilities that
differ only in that field summarize every input identically, because
the truncated token list `preprocess` computes is never consumed. -/
theorem process_independent_of_max_input_length
    (nm ver : String) (cost : Int) (len1 len2 : Nat) (active : Bool)
    (text : String) (h : active = true) :
    TextSummarizationModel.process ⟨nm, ver, cost, len1, active⟩ text
      = TextSummarizationModel.process ⟨nm, ver, cost, len2, active⟩ text := by
  subst h
  rfl

/-- C10 witness: truncation limits 1 and 999 on a concrete input. -/
theorem process_independent_witness :
    TextSummarizationModel.process ⟨"s", "1", 10, 1, true⟩ "One two. Three four. Five."
      = TextSummarizationModel.process ⟨"s", "1", 10, 999, true⟩ "One two. Three four. Five." :=
  process_independent_of_max_input_length "s" "1" 10 1 999 true
    "One two. Three four. Five." rfl

/-- C2: whenever `process_request` returns without raising from a state
where the sufficiency check passes, and the run fails after reservation
(the payload is not truthy, or the capability's `process` raises), the
request ends in `ERROR`, the call returns `False`, the ledger logs
first the withdrawal of exactly `cost` and then a refund deposit of
exactly `cost`, and the user's net balance change is 0. -/
theorem processing_failure_refunds_exact_cost
    (req req' : PredictionRequest) (am am' : AccountManager) (r : Bool)
    (hok : req.process_request am = Except.ok (req', am', r))
    (hsuff : am.has_sufficient_balance req.user_id req.cost = true)
    (hfail : pyTruthyStr req.pdf_file.extracted_text = false ∨
      ∃ e, req.model.process (req.pdf_file.extracted_text.getD "")
        = Except.error e) :
    req'.status = RequestStatus.error ∧ r = false ∧
    am'.get_balance req.user_id = am.get_balance req.user_id ∧
    ∃ d1 d2, am'.transaction_history = am.transaction_history
      ++ [⟨req.user_id, req.cost, TransactionType.withdrawal, d1⟩,
          ⟨req.user_id, req.cost, TransactionType.deposit, d2⟩] := by
  unfold PredictionRequest.process_request at hok
  rw [hsuff] at hok
  simp only [eq_self_iff_true, if_true] at hok
  cases hw : am.withdraw req.user_id req.cost ("Payment for " ++ req.model.name) with
  | error e =>
    rw [hw] at hok
    exact absurd hok (by simp)
  | ok p =>
    obtain ⟨am1, b⟩ := p
    obtain ⟨hpos, hcase⟩ :=
      AccountManager.withdraw_spec am req.user_id req.cost _ am1 b hw
    cases b with
    | false =>
      rcases hcase with ⟨hb, _⟩ | ⟨_, hlt, _⟩
      · exact absurd hb (by simp)
      · have hle : req.cost ≤ am.get_balance req.user_id := of_decide_eq_true hsuff
        omega
    | true =>
      rcases hcase with ⟨_, hle, htxw, hbalw⟩ | ⟨hb, _, _⟩
      · simp only [hw] at hok
        cases hpy : pyTruthyStr req.pdf_file.extracted_text with
        | true =>
          rcases hfail with hf | ⟨e, he⟩
          · rw [hpy] at hf
            exact absurd hf (by simp)
          · simp only [hpy, eq_self_iff_true, if_true, he] at hok
            unfold PredictionRequest.handleException at hok
            dsimp only at hok
            obtain ⟨am2, hdp⟩ := AccountManager.deposit_pos am1 req.user_id req.cost
              ("Refund for processing error: " ++ e) hpos
            rw [hdp] at hok
            simp only [Except.ok.injEq, Prod.mk.injEq] at hok
            obtain ⟨hreq, ham2, hr⟩ := hok
            subst hreq
            subst ham2
            obtain ⟨_, _, htxd, hbald⟩ :=
              AccountManager.deposit_spec am1 req.user_id req.cost _ am2 true hdp
            refine ⟨rfl, hr.symm, ?_, ?_⟩
            · have h1 := hbald req.user_id
              have h2 := hbalw req.user_id
              rw [if_pos rfl] at h1 h2
              omega
            · refine ⟨"Payment for " ++ req.model.name,
                "Refund for processing error: " ++ e, ?_⟩
              rw [htxd, htxw]
              simp
        | false =>
          simp only [hpy, Bool.false_eq_true, if_false] at hok
          obtain ⟨am2, hdp⟩ := AccountManager.deposit_pos am1 req.user_id req.cost
            "Refund for failed processing" hpos
          rw [hdp] at hok
          simp only [Except.ok.injEq, Prod.mk.injEq] at hok
          obtain ⟨hreq, ham2, hr⟩ := hok
          subst hreq
          subst ham2
          obtain ⟨_, _, htxd, hbald⟩ :=
            AccountManager.deposit_spec am1 req.user_id req.cost _ am2 true hdp
          refine ⟨rfl, hr.symm, ?_, ?_⟩
          · have h1 := hbald req.user_id
            have h2 := hbalw req.user_id
            rw [if_pos rfl] at h1 h2
            omega
          · refine ⟨"Payment for " ++ req.model.name, "Refund for failed processing", ?_⟩
            rw [htxd, htxw]
            simp
      · exact absurd hb (by simp)

/-- C2 witness: balance 100, cost 10, payload with no extracted text
(the spec scenario): `ERROR`, balance restored to 100, a withdrawal
then a deposit of 10. -/
theorem refund_equals_charge_witness :
    noTextReqErr.status = RequestStatus.error ∧ false = false ∧
    ledger100Refunded.get_balance 0 = ledger100.get_balance 0 ∧
    ∃ d1 d2, ledger100Refunded.transaction_history
      = ledger100.transaction_history
        ++ [⟨0, 10, TransactionType.withdrawal, d1⟩,
            ⟨0, 10, TransactionType.deposit, d2⟩] :=
  processing_failure_refunds_exact_cost noTextReq noTextReqErr ledger100
    ledger100Refunded false rfl rfl (Or.inl rfl)

/-- C4 counterexample: the data model allows a capability cost of 0
(non-negative), yet `process_request` on a request whose snapshotted
cost is 0 raises: the sufficiency check `0 <= balance` passes and
`withdraw(0)` throws `Withdrawal amount must be positive`, which
escapes `process_request`. -/
theorem zero_cost_request_raises_cex :
    0 ≤ zeroCostReq.cost ∧
    zeroCostReq.process_request AccountManager.init
      = Except.error "Withdrawal amount must be positive" :=
  ⟨by decide, rfl⟩

/-- C4 (amended): for every request whose cost is strictly positive,
`process_request` never raises: every business failure is folded into
the returned triple (terminal status and `False`), for every ledger
state. -/
theorem process_request_pos_cost_no_exception (req : PredictionRequest)
    (am : AccountManager) (h : 0 < req.cost) :
    ∃ out, req.process_request am = Except.ok out := by
  unfold PredictionRequest.process_request
  cases hs : am.has_sufficient_balance req.user_id req.cost with
  | false => simp [hs]
  | true =>
    simp only [eq_self_iff_true, if_true]
    obtain ⟨am1, b, hw⟩ := AccountManager.withdraw_pos am req.user_id req.cost _ h
    rw [hw]
    cases b with
    | false => exact ⟨_, rfl⟩
    | true =>
      dsimp only
      cases hpy : pyTruthyStr req.pdf_file.extracted_text with
      | true =>
        simp only [eq_self_iff_true, if_true]
        cases hp : req.model.process (req.pdf_file.extracted_text.getD "") with
        | ok s => exact ⟨_, rfl⟩
        | error e =>
          unfold PredictionRequest.handleException
          dsimp only
          obtain ⟨am2, hdp⟩ := AccountManager.deposit_pos am1 req.user_id req.cost
            ("Refund for processing error: " ++ e) h
          rw [hdp]
          exact ⟨_, rfl⟩
      | false =>
        simp only [Bool.false_eq_true, if_false]
        obtain ⟨am2, hdp⟩ := AccountManager.deposit_pos am1 req.user_id req.cost
          "Refund for failed processing" h
        rw [hdp]
        exact ⟨_, rfl⟩

/-- C4 witness: the demo request (cost 10) over the balance-5 ledger
returns a value (`InsufficientFunds`) instead of raising. -/
theorem pos_cost_no_exception_witness :
    ∃ out, demoRequest.process_request ledger5 = Except.ok out :=
  process_request_pos_cost_no_exception demoRequest ledger5 (by decide)

/-- C5 counterexample: the claim quantifies over all create/deposit/
withdraw sequences, but `create_account` performs no validation of the
initial balance, so creating an account with initial balance -5 is a
reachable state whose balance is negative. -/
theorem negative_initial_balance_cex :
    AccountManager.init.runAccountOps [AccountOp.create 0 (-5)]
      = Except.ok ⟨[(0, -5)], []⟩ ∧
    (⟨[(0, -5)], []⟩ : AccountManager).get_balance 0 < 0 :=
  ⟨rfl, by decide⟩

/-- C5 (amended): restricted to sequences whose account creations use
non-negative initial balances, every reachable ledger state has only
non-negative balances; and each ledger call pairs with the transaction
log as the claim says: a successful deposit or withdrawal appends
exactly one record of matching kind and amount, while a failed
withdrawal and an account creation append none. -/
theorem ledger_nonneg_and_txn_pairing :
    (∀ (ops : List AccountOp) (am' : AccountManager),
      (∀ op ∈ ops, op.createNonneg) →
      AccountManager.init.runAccountOps ops = Except.ok am' →
      ∀ u, 0 ≤ am'.get_balance u) ∧
    (∀ (am : AccountManager) (op : AccountOp) (am' : AccountManager),
      am.runAccountOp op = Except.ok am' → stepTxnPaired am op am') := by
  constructor
  · intro ops am' hops h
    refine AccountManager.runAccountOps_nonneg ops AccountManager.init am' hops ?_ h
    intro u
    simp [AccountManager.init, AccountManager.get_balance, lookupBal]
  · exact AccountManager.runAccountOp_paired

/-- C5 witness: creating an account with balance 7 leaves a
non-negative balance, and a deposit of 5 into a fresh ledger pairs with
exactly one matching transaction. -/
theorem nonneg_and_pairing_witness :
    (0 ≤ (AccountManager.mk [(0, 7)] []).get_balance 0) ∧
    stepTxnPaired AccountManager.init (AccountOp.deposit 0 5 "top-up")
      ⟨[(0, 5)], [⟨0, 5, TransactionType.deposit, "top-up"⟩]⟩ :=
  ⟨ledger_nonneg_and_txn_pairing.1 [AccountOp.create 0 7] ⟨[(0, 7)], []⟩
      (by decide) rfl 0,
   ledger_nonneg_and_txn_pairing.2 AccountManager.init (AccountOp.deposit 0 5 "top-up")
      ⟨[(0, 5)], [⟨0, 5, TransactionType.deposit, "top-up"⟩]⟩ rfl⟩

/-- C3 witness: a deposit of 50 then a withdrawal of 20 from a fresh
ledger: balance 30, and the two logged transactions account for it. -/
theorem balance_conservation_witness :
    ∃ ts, (⟨[(0, 30)],
        [⟨0, 50, TransactionType.deposit, "top-up"⟩,
         ⟨0, 20, TransactionType.withdrawal, "fee"⟩]⟩ : AccountManager).transaction_history
        = AccountManager.init.transaction_history ++ ts ∧
      (⟨[(0, 30)],
        [⟨0, 50, TransactionType.deposit, "top-up"⟩,
         ⟨0, 20, TransactionType.withdrawal, "fee"⟩]⟩ : AccountManager).get_balance 0
        = AccountManager.init.get_balance 0 + depositTxnSum 0 ts - withdrawalTxnSum 0 ts ∧
      depositTxnSum 0 ts = opDepositSum 0 opsDemo ∧
      signedTxnSum 0 ts
        = (⟨[(0, 30)],
            [⟨0, 50, TransactionType.deposit, "top-up"⟩,
             ⟨0, 20, TransactionType.withdrawal, "fee"⟩]⟩ : AccountManager).get_balance 0
          - AccountManager.init.get_balance 0 :=
  ledger_balance_conservation 0 opsDemo AccountManager.init
    ⟨[(0, 30)],
     [⟨0, 50, TransactionType.deposit, "top-up"⟩,
      ⟨0, 20, TransactionType.withdrawal, "fee"⟩]⟩ rfl
